import Mathlib

/-!
Shallow embedding of the dependency-discovery and build-specification
pipeline of butterflow's `setup.py`, together with proofs checking the
natural-language specification against it.

External effects (subprocess launches, their stdout and exit codes, the
`ctypes.util.find_library` lookup, the `import cv2` attempt) are modelled
as explicit oracle parameters; a launch that raises in Python is an
`Except.error`.  Pure string manipulation is translated directly from the
source, character list by character list, mirroring Python semantics
(`str.strip`, `os.path.basename`, `str.split`, `str.find`, truthiness).
-/

/-- Characters removed by Python `str.strip()` with no argument. -/
def isPySpace (c : Char) : Bool :=
  c = ' ' || c = '\t' || c = '\n' || c = '\r' || c = '\x0b' || c = '\x0c'

/-- Python `str.strip()` on a character list: drop whitespace from both ends. -/
def pyStripL (xs : List Char) : List Char :=
  ((xs.dropWhile isPySpace).reverse.dropWhile isPySpace).reverse

/-- Python `os.path.basename` (posix): everything after the last slash. -/
def basenameL (xs : List Char) : List Char :=
  (xs.reverse.takeWhile (fun c => c != '/')).reverse

/-- Truncation of `xs` at the first occurrence of the substring `pat`;
this is the `chop_at` helper inside `get_lib_short_name` (setup.py:173-177),
`x[:x.find(y)]` when `y` occurs in `x`, else `x`. -/
def chopAtAux : List Char → List Char → List Char
  | [], _ => []
  | c :: rest, pat => if pat.isPrefixOf (c :: rest) then [] else c :: chopAtAux rest pat

/-- Suffix pattern ".so". -/
def soPat : List Char := ['.', 's', 'o']

/-- Suffix pattern ".dylib". -/
def dylibPat : List Char := ['.', 'd', 'y', 'l', 'i', 'b']

/-- Suffix pattern ".a". -/
def aPat : List Char := ['.', 'a']

/-- Core of `get_lib_short_name` (setup.py:163-181): strip whitespace, take
the basename, strip a leading "-l", strip a leading "lib", then chop at the
first occurrence of ".so", then ".dylib", then ".a". -/
def shortNameL (xs : List Char) : List Char :=
  let n1 := basenameL (pyStripL xs)
  let n2 := if ['-', 'l'].isPrefixOf n1 then n1.drop 2 else n1
  let n3 := if ['l', 'i', 'b'].isPrefixOf n2 then n2.drop 3 else n2
  chopAtAux (chopAtAux (chopAtAux n3 soPat) dylibPat) aPat

/-- The NameNormalizer: `get_lib_short_name` from setup.py:163-181. -/
def get_lib_short_name (name : String) : String :=
  String.mk (shortNameL name.toList)

/-- Python `str.split(sep)` for a single-character separator, keeping empty
pieces (so consecutive separators yield empty strings, as in Python). -/
def splitSep (sep : Char) : List Char → List (List Char)
  | [] => [[]]
  | c :: t =>
    match splitSep sep t with
    | [] => [[]]
    | h :: r => if c = sep then [] :: h :: r else (c :: h) :: r

/-- Python substring containment test (the `in` operator on strings). -/
def containsSub (hay needle : List Char) : Bool :=
  if needle.isPrefixOf hay then true
  else
    match hay with
    | [] => false
    | _ :: t => containsSub t needle

/-- Process environments are modelled as association lists, first entry wins. -/
abbrev Env := List (String × String)

/-- Dictionary read; `Option.none` models a missing key. -/
def envGet : Env → String → Option String
  | [], _ => Option.none
  | (k0, v0) :: t, k => if k0 = k then some v0 else envGet t k

/-- Dictionary write: replace the first binding of the key, or append a new
binding when the key is absent (Python dict assignment). -/
def envSet : Env → String → String → Env
  | [], k, v => [(k, v)]
  | (k0, v0) :: t, k, v => if k0 = k then (k, v) :: t else (k0, v0) :: envSet t k v

/-- The literal local pkg-config path list from setup.py:64-67. -/
def local_pkg_config_paths : String :=
  "/usr/local/lib/pkgconfig:/usr/local/pkgconfig:/usr/share/pkgconfig"

/-- Mutable interpreter state relevant to `get_extra_envs`: the ambient
`os.environ`. -/
structure PyState where
  environ : Env
deriving DecidableEq

/-- The EnvironmentAugmenter `get_extra_envs` (setup.py:58-74), with the
ambient state threaded explicitly.  The function works on a copy of
`os.environ` and never writes the ambient mapping back, hence the state
component of the result is returned untouched. -/
def get_extra_envs_run (s : PyState) : Env × PyState :=
  let env := s.environ
  let env :=
    match envGet env "PKG_CONFIG_PATH" with
    | some v => envSet env "PKG_CONFIG_PATH" (v ++ ":" ++ local_pkg_config_paths)
    | Option.none => envSet env "PKG_CONFIG_PATH" local_pkg_config_paths
  (env, s)

/-- The environment returned by `get_extra_envs` given the ambient one. -/
def get_extra_envs (amb : Env) : Env :=
  (get_extra_envs_run { environ := amb }).1

/-- Python exceptions that the embedded code can raise. -/
inductive PyExc where
  | osError : PyExc
  | indexError : PyExc
  | attributeError : PyExc
deriving DecidableEq

deriving instance DecidableEq for Except

/-- The CommandProbe `have_command` (setup.py:77-81).  `launch` models
`subprocess.call`: it either returns an exit code or raises `OSError`
(executable not found).  The source has no handler, so a raised error
propagates. -/
def have_command (launch : List String → Except PyExc Int) (name : String) :
    Except PyExc Bool :=
  match launch ["which", name] with
  | Except.error e => Except.error e
  | Except.ok code => Except.ok (decide (code = 0))

/-- Record of one pkg-config subprocess invocation: argv plus environment. -/
structure PCCall where
  argv : List String
  env : Env
deriving DecidableEq

/-- Python truthiness of the optional string returned by `find_library`:
`None` and the empty string are falsy. -/
def pyTruthy : Option String → Bool
  | Option.none => false
  | some s => !s.isEmpty

/-- The LibraryResolver `have_library` (setup.py:84-96).  `findLib` models
`ctypes.util.find_library`; `callExit` models the exit code of a launched
pkg-config subprocess.  The second component records the pkg-config calls
made, for frame reasoning. -/
def have_library (findLib : String → Option String) (callExit : PCCall → Int)
    (amb : Env) (name : String) : Bool × List PCCall :=
  let sn := get_lib_short_name name
  let res := findLib sn
  if !pyTruthy res then
    let call : PCCall := { argv := ["pkg-config", "--exists", name], env := get_extra_envs amb }
    (decide (callExit call = 0), [call])
  else
    (true, [])

/-- Tokenisation shared by `have_library_object_file` and `pkg_config_res`:
`res.strip().split(' ')` on captured stdout. -/
def pcTokens (out : String) : List (List Char) :=
  splitSep ' ' (pyStripL out.toList)

/-- The object-file check `have_library_object_file` (setup.py:99-112).
`libsOut` models the stdout of `pkg-config --libs`.  Tokens are mapped
through `get_lib_short_name` and membership of the normalised object file
name is tested; when the library itself is absent the function returns
false without invoking pkg-config --libs. -/
def have_library_object_file (findLib : String → Option String)
    (callExit : PCCall → Int) (libsOut : PCCall → String)
    (amb : Env) (libname name : String) : Bool × List PCCall :=
  match have_library findLib callExit amb libname with
  | (true, tr) =>
    let call : PCCall := { argv := ["pkg-config", "--libs", libname], env := get_extra_envs amb }
    let res := libsOut call
    let toks := (pcTokens res).map (fun t => String.mk (shortNameL t))
    (decide (get_lib_short_name name ∈ toks), tr ++ [call])
  | (false, tr) => (false, tr)

/-- Loop body of `pkg_config_res` (setup.py:126-137) over the token list.
Empty tokens are skipped; a token that is empty after `strip()`, or equal
to a lone dash, makes `x[0]` raise `IndexError`; otherwise one leading dash
is removed, an `l`, `L` or `I` head has the rest kept verbatim, any other
token is passed through `get_lib_short_name`. -/
def pcLoop : List (List Char) → Except PyExc (List String)
  | [] => Except.ok []
  | x :: xs =>
    if x = [] then pcLoop xs
    else
      match pyStripL x with
      | [] => Except.error PyExc.indexError
      | c :: rest =>
        match (if c = '-' then rest else c :: rest) with
        | [] => Except.error PyExc.indexError
        | c2 :: rest2 =>
          let piece :=
            if c2 = 'l' ∨ c2 = 'L' ∨ c2 = 'I' then String.mk rest2
            else String.mk (shortNameL (c2 :: rest2))
          match pcLoop xs with
          | Except.ok l => Except.ok (piece :: l)
          | Except.error e => Except.error e

/-- The PkgConfigQuery token post-processing `pkg_config_res`
(setup.py:115-137), as a function of the captured stdout. -/
def pkg_config_res (raw : String) : Except PyExc (List String) :=
  pcLoop (pcTokens raw)

/-- Scan of the split ldconfig output (setup.py:148-153): the first piece
that starts with `libname` is split on "=>"; index 1 of that split raises
`IndexError` when no "=>" is present; otherwise its stripped value is the
result.  No matching piece yields `None`. -/
def scanLines (libname : String) : List String → Except PyExc (Option String)
  | [] => Except.ok Option.none
  | x :: xs =>
    if x.startsWith libname then
      match (x.splitOn "=>").get? 1 with
      | some y => Except.ok (some (String.mk (pyStripL y.toList)))
      | Option.none => Except.error PyExc.indexError
    else scanLines libname xs

/-- Pure part of `get_lib_installed_path` (setup.py:146-153) applied to the
captured ldconfig stdout: the early substring test, then the line scan. -/
def ldconfig_scan (out : String) (libname : String) : Except PyExc (Option String) :=
  if containsSub out.toList libname.toList then
    scanLines libname (out.splitOn "\n\t")
  else Except.ok Option.none

/-- The InstalledPathLookup `get_lib_installed_path` (setup.py:140-153).
`launch` models `subprocess.Popen(...).stdout.read()`: either the captured
stdout or a raised `OSError` (ldconfig not launchable), which the source
does not catch. -/
def get_lib_installed_path (launch : List String → Except PyExc String)
    (libname : String) : Except PyExc (Option String) :=
  match launch ["ldconfig", "-p"] with
  | Except.error e => Except.error e
  | Except.ok out => ldconfig_scan out libname

/-- The namespec derivation `get_lib_filename_namespec` (setup.py:156-160):
`':' + os.path.basename(get_lib_installed_path(libname))`.  When the lookup
returns `None`, `os.path.basename(None)` raises an uncaught
`AttributeError` (`NoneType` has no `rfind`), modelled as that error. -/
def get_lib_filename_namespec (launch : List String → Except PyExc String)
    (libname : String) : Except PyExc String :=
  match get_lib_installed_path launch libname with
  | Except.error e => Except.error e
  | Except.ok Option.none => Except.error PyExc.attributeError
  | Except.ok (some p) => Except.ok (":" ++ String.mk (basenameL p.toList))

/-- Probe calls made by the dependency gate, for call counting and ordering. -/
inductive Probe where
  | cmd : String → Probe
  | lib : String → Probe
  | objfile : String → String → Probe
  | importCv2 : Probe
deriving DecidableEq

/-- Oracle for the dependency gate: the runtime version, the platform
branch, and the outcome of each probe (`have_command`, `have_library`,
`have_library_object_file`, and the `import cv2` attempt of
setup.py:268-271). -/
structure DepOracle where
  py_ver_X : Nat
  py_ver_Y : Nat
  platform_linux : Bool
  cmd_ok : String → Bool
  lib_ok : String → Bool
  objfile_ok : String → String → Bool
  cv2_ok : Bool

/-- The version string `py_ver` (setup.py:210). -/
def py_ver (o : DepOracle) : String :=
  toString o.py_ver_X ++ "." ++ toString o.py_ver_Y

/-- Outcome of a single probe under the oracle. -/
def probeOk (o : DepOracle) : Probe → Bool
  | Probe.cmd n => o.cmd_ok n
  | Probe.lib n => o.lib_ok n
  | Probe.objfile l n => o.objfile_ok l n
  | Probe.importCv2 => o.cv2_ok

/-- Diagnostic message produced when a given probe fails
(setup.py:238, 245-246, 251, 271). -/
def probeMsg : Probe → String
  | Probe.cmd n => n ++ " is needed to complete the build process"
  | Probe.lib n => n ++ " library is needed to complete the build process"
  | Probe.objfile l n => l ++ " library is missing object file " ++ n
  | Probe.importCv2 => "opencv built with BUILD_opencv_python=ON required"

/-- Short-circuiting check loop: runs probes in order, stops at the first
failure with its message; the second component is the list of probes
actually executed. -/
def scanChecks {α : Type} (ok : α → Bool) (msg : α → String) :
    List α → Option String × List α
  | [] => (Option.none, [])
  | x :: xs =>
    if ok x then
      let r := scanChecks ok msg xs
      (r.1, x :: r.2)
    else (some (msg x), [x])

/-- Required external tools (setup.py:231-235): pkg-config, ldconfig on
Linux only, then the versioned python-config. -/
def dep_tools (o : DepOracle) : List Probe :=
  ((["pkg-config"] ++ (if o.platform_linux then ["ldconfig"] else []))
      ++ ["python" ++ py_ver o ++ "-config"]).map Probe.cmd

/-- Required shared libraries (setup.py:239-243). -/
def dep_libs : List Probe :=
  [Probe.lib "opencv", Probe.lib "avformat", Probe.lib "avcodec",
   Probe.lib "avutil", Probe.lib "OpenCL"]

/-- Required object files inside opencv (setup.py:247-249). -/
def dep_objfiles : List Probe :=
  [Probe.objfile "opencv" "libopencv_ocl.so",
   Probe.objfile "opencv" "libopencv_core.so",
   Probe.objfile "opencv" "libopencv_imgproc.so"]

/-- The DependencyGate `check_dependencies` (setup.py:227-272): result pair
(pass flag, optional diagnostic) plus the ordered list of probes executed.
The `sys.path` reshuffling before the binding import (setup.py:254-267)
changes no check outcome and is elided; the import itself is the
`importCv2` probe. -/
def check_dependencies (o : DepOracle) : (Bool × Option String) × List Probe :=
  if o.py_ver_X ≠ 2 then
    ((false, some ("Python " ++ py_ver o ++ " is not version 2.x")), [])
  else
    match scanChecks (probeOk o) probeMsg (dep_tools o) with
    | (some m, t1) => ((false, some m), t1)
    | (Option.none, t1) =>
      match scanChecks (probeOk o) probeMsg dep_libs with
      | (some m, t2) => ((false, some m), t1 ++ t2)
      | (Option.none, t2) =>
        match scanChecks (probeOk o) probeMsg dep_objfiles with
        | (some m, t3) => ((false, some m), t1 ++ t2 ++ t3)
        | (Option.none, t3) =>
          if o.cv2_ok then
            ((true, Option.none), t1 ++ t2 ++ t3 ++ [Probe.importCv2])
          else
            ((false, some "opencv built with BUILD_opencv_python=ON required"),
             t1 ++ t2 ++ t3 ++ [Probe.importCv2])

/-- Full ordered probe sequence of the gate for a given oracle. -/
def allProbes (o : DepOracle) : List Probe :=
  dep_tools o ++ dep_libs ++ dep_objfiles ++ [Probe.importCv2]

/-- Hashable Python values that can sit in the `build_lst` set: strings and
`None`.  (Unhashable elements such as nested lists would make `set.add`
raise; none occur at the call sites and they are outside this model.) -/
inductive PyAtom where
  | str : String → PyAtom
  | none : PyAtom
deriving DecidableEq

/-- Arguments to `build_lst`: either a bare value or a list of values. -/
inductive PyArg where
  | atom : PyAtom → PyArg
  | list : List PyAtom → PyArg
deriving DecidableEq

/-- Set insertion, with the set modelled as a duplicate-free list (`list(s)`
order is unspecified in Python 2; only membership and dedup matter). -/
def setAdd (acc : List PyAtom) (v : PyAtom) : List PyAtom :=
  if v ∈ acc then acc else acc ++ [v]

/-- Loop body of `build_lst` for one argument: a string argument adds
itself (`isinstance(x, str)`), a list argument adds each of its elements
whatever they are (`isinstance(x, list)`), any other argument — in
particular a bare `None` — adds nothing. -/
def addArg (acc : List PyAtom) (x : PyArg) : List PyAtom :=
  match x with
  | PyArg.atom (PyAtom.str s) => setAdd acc (PyAtom.str s)
  | PyArg.atom _ => acc
  | PyArg.list ys => ys.foldl setAdd acc

/-- The BuildUnitAssembler helper `build_lst` (setup.py:184-194). -/
def build_lst (items : List PyArg) : List PyAtom :=
  items.foldl addArg []

/-- Normalization exactly as claim C8 words it, for comparison with the
source function: strip a leading "-l", then a leading "lib", then truncate
at the first match of ".so", ".dylib" or ".a" — with no whitespace
stripping and no basename step. -/
def normalize_claim_worded (s : String) : String :=
  let xs := s.toList
  let xs := if ['-', 'l'].isPrefixOf xs then xs.drop 2 else xs
  let xs := if ['l', 'i', 'b'].isPrefixOf xs then xs.drop 3 else xs
  String.mk (chopAtAux (chopAtAux (chopAtAux xs soPat) dylibPat) aPat)

/-- Index of the first occurrence of `pat` in a list, if any. -/
def firstOccIdx (pat : List Char) : List Char → Option Nat
  | [] => if pat.isEmpty then some 0 else Option.none
  | c :: t =>
    if pat.isPrefixOf (c :: t) then some 0
    else (firstOccIdx pat t).map (fun i => i + 1)

/-- Truncation at the first occurrence of `pat`, phrased through
`firstOccIdx` (the amended claim wording of the chop step). -/
def truncAtFirst (pat : List Char) (xs : List Char) : List Char :=
  match firstOccIdx pat xs with
  | some i => xs.take i
  | Option.none => xs

/-- Removal of a leading "-l", by explicit head inspection. -/
def stripDashL : List Char → List Char
  | c1 :: c2 :: rest => if c1 = '-' ∧ c2 = 'l' then rest else c1 :: c2 :: rest
  | xs => xs

/-- Removal of a leading "lib", by explicit head inspection. -/
def stripLib3 : List Char → List Char
  | c1 :: c2 :: c3 :: rest =>
    if c1 = 'l' ∧ c2 = 'i' ∧ c3 = 'b' then rest else c1 :: c2 :: c3 :: rest
  | xs => xs

/-- Final path component, phrased as a left fold that restarts at every
slash (an independent formulation of basename). -/
def lastCompFold (xs : List Char) : List Char :=
  xs.foldl (fun acc c => if c = '/' then [] else acc ++ [c]) []

/-- Normalization as amended claim C8 words it: trim whitespace, reduce to
the final path component, strip a leading "-l", then a leading "lib", then
truncate at the first match of ".so", then ".dylib", then ".a". -/
def normalize_amended_spec (s : String) : String :=
  String.mk (truncAtFirst aPat (truncAtFirst dylibPat (truncAtFirst soPat
    (stripLib3 (stripDashL (lastCompFold (pyStripL s.toList)))))))

/-- Per-token value of the pkg-config token classifier as the amended claim
C5 words it: an empty token is skipped; otherwise the token is stripped,
one leading dash is removed, a token classified `l`, `L` or `I` keeps the
remainder verbatim, and any other token is normalised whole. -/
def pcTokenValue (t : List Char) : Option String :=
  if t = [] then Option.none
  else
    match pyStripL t with
    | [] => Option.none
    | c :: rest =>
      match (if c = '-' then rest else c :: rest) with
      | [] => Option.none
      | c2 :: rest2 =>
        some (if c2 = 'l' ∨ c2 = 'L' ∨ c2 = 'I' then String.mk rest2
              else String.mk (shortNameL (c2 :: rest2)))

/-- Well-formedness of one pkg-config output token: it does not make the
loop raise `IndexError` (it is empty, or survives stripping and the dash
removal with at least one character left). -/
def goodTok (t : List Char) : Bool :=
  t.isEmpty ||
    (match pyStripL t with
     | [] => false
     | '-' :: rest => !rest.isEmpty
     | _ :: _ => true)

/-- Concrete oracle with a Python 3.4 runtime, everything else available. -/
def oracleV3 : DepOracle :=
  { py_ver_X := 3, py_ver_Y := 4, platform_linux := true,
    cmd_ok := fun _ => true, lib_ok := fun _ => true,
    objfile_ok := fun _ _ => true, cv2_ok := true }

/-- Launcher whose every subprocess fails to start. -/
def launchFailI : List String → Except PyExc Int :=
  fun _ => Except.error PyExc.osError

/-- Stdout launcher whose every subprocess fails to start. -/
def launchFailS : List String → Except PyExc String :=
  fun _ => Except.error PyExc.osError

/-- Stdout launcher whose every subprocess succeeds with empty output. -/
def launchEmptyOut : List String → Except PyExc String :=
  fun _ => Except.ok ""

/-- A `find_library` oracle that finds nothing. -/
def findLibNone : String → Option String :=
  fun _ => Option.none

/-- An exit-code oracle under which every pkg-config call fails. -/
def exitOne : PCCall → Int :=
  fun _ => 1

/-- A stdout oracle under which pkg-config prints nothing. -/
def libsOutEmpty : PCCall → String :=
  fun _ => ""

/-- Arguments mirroring the `py_motion` libraries call (setup.py:360):
a list of strings, a bare `None` (`py_libs` on Darwin), and a bare string. -/
def demoItems : List PyArg :=
  [PyArg.list [PyAtom.str "opencv_core", PyAtom.str "opencv_ocl"],
   PyArg.atom PyAtom.none, PyArg.atom (PyAtom.str "OpenCL")]

theorem envGet_envSet_self (e : Env) (k v : String) :
    envGet (envSet e k v) k = some v := by
  induction e with
  | nil => simp [envSet, envGet]
  | cons p t ih =>
    obtain ⟨k0, v0⟩ := p
    by_cases h : k0 = k <;> simp [envSet, envGet, h, ih]

theorem envGet_envSet_ne (e : Env) (k v k2 : String) (h : k2 ≠ k) :
    envGet (envSet e k v) k2 = envGet e k2 := by
  induction e with
  | nil => simp [envSet, envGet, Ne.symm h]
  | cons p t ih =>
    obtain ⟨k0, v0⟩ := p
    by_cases h0 : k0 = k
    · subst h0
      simp [envSet, envGet, Ne.symm h]
    · by_cases h2 : k0 = k2 <;> simp [envSet, envGet, h, h0, h2, ih]

/-- C7: `get_extra_envs` never mutates the ambient environment; the
returned private copy maps PKG_CONFIG_PATH to the original value plus the
three fixed local pkg-config paths joined with ":", or to just the fixed
paths when the variable was absent, and agrees with the ambient mapping on
every other variable. -/
theorem get_extra_envs_spec :
    local_pkg_config_paths =
      String.intercalate ":"
        ["/usr/local/lib/pkgconfig", "/usr/local/pkgconfig", "/usr/share/pkgconfig"] ∧
    ∀ amb : Env,
      (get_extra_envs_run { environ := amb }).2 = { environ := amb } ∧
      (∀ v, envGet amb "PKG_CONFIG_PATH" = some v →
        envGet (get_extra_envs amb) "PKG_CONFIG_PATH" =
          some (v ++ ":" ++ local_pkg_config_paths)) ∧
      (envGet amb "PKG_CONFIG_PATH" = Option.none →
        envGet (get_extra_envs amb) "PKG_CONFIG_PATH" = some local_pkg_config_paths) ∧
      (∀ k, k ≠ "PKG_CONFIG_PATH" → envGet (get_extra_envs amb) k = envGet amb k) := by
  refine ⟨rfl, fun amb => ⟨rfl, ?_, ?_, ?_⟩⟩
  · intro v h
    simp only [get_extra_envs, get_extra_envs_run, h]
    exact envGet_envSet_self ..
  · intro h
    simp only [get_extra_envs, get_extra_envs_run, h]
    exact envGet_envSet_self ..
  · intro k hk
    simp only [get_extra_envs, get_extra_envs_run]
    cases envGet amb "PKG_CONFIG_PATH" <;>
      simp only [] <;> exact envGet_envSet_ne _ _ _ _ hk

/-- C7 witness: a concrete ambient environment with PKG_CONFIG_PATH bound
to "/opt/pc" keeps that binding while the returned copy has it extended. -/
theorem get_extra_envs_spec_witness :
    (get_extra_envs_run { environ := [("PKG_CONFIG_PATH", "/opt/pc")] }).2 =
      { environ := [("PKG_CONFIG_PATH", "/opt/pc")] } ∧
    envGet (get_extra_envs [("PKG_CONFIG_PATH", "/opt/pc")]) "PKG_CONFIG_PATH" =
      some ("/opt/pc" ++ ":" ++ local_pkg_config_paths) :=
  ⟨(get_extra_envs_spec.2 [("PKG_CONFIG_PATH", "/opt/pc")]).1,
   (get_extra_envs_spec.2 [("PKG_CONFIG_PATH", "/opt/pc")]).2.1 "/opt/pc" (by decide)⟩

/-- C2 counterexample: with ldconfig output in which the library does not
occur, the lookup returns `None`, and `get_lib_filename_namespec` then
raises an uncaught `AttributeError` from `os.path.basename(None)` — an
unhandled crash, not the documented error the claim requires. -/
theorem namespec_none_crash_cex :
    get_lib_installed_path launchEmptyOut "libOpenCL" = Except.ok Option.none ∧
    get_lib_filename_namespec launchEmptyOut "libOpenCL" =
      Except.error PyExc.attributeError := by
  exact ⟨rfl, rfl⟩

/-- C2 as amended: when the lookup returns `None`, `namespec` raises an
uncaught `AttributeError` (a crash); when the lookup succeeds with path
`p`, `namespec` returns ":" followed by the filename component of `p`. -/
theorem namespec_characterization (launch : List String → Except PyExc String)
    (lib : String) :
    (get_lib_installed_path launch lib = Except.ok Option.none →
      get_lib_filename_namespec launch lib = Except.error PyExc.attributeError) ∧
    (∀ p, get_lib_installed_path launch lib = Except.ok (some p) →
      get_lib_filename_namespec launch lib =
        Except.ok (":" ++ String.mk (basenameL p.toList))) := by
  constructor
  · intro h
    simp [get_lib_filename_namespec, h]
  · intro p h
    simp [get_lib_filename_namespec, h]

/-- C2 witness: the amended theorem applied at the concrete empty ldconfig
output. -/
theorem namespec_characterization_witness :
    get_lib_filename_namespec launchEmptyOut "libOpenCL" =
      Except.error PyExc.attributeError :=
  (namespec_characterization launchEmptyOut "libOpenCL").1 rfl

/-- C3 counterexample: when the locator or lister tool itself cannot be
launched, the raised OS error escapes to the caller; the probe does not
return false and the lookup does not return `None`, contrary to the claim. -/
theorem launch_failure_cex :
    have_command launchFailI "pkg-config" = Except.error PyExc.osError ∧
    have_command launchFailI "pkg-config" ≠ Except.ok false ∧
    get_lib_installed_path launchFailS "libOpenCL" = Except.error PyExc.osError ∧
    get_lib_installed_path launchFailS "libOpenCL" ≠ Except.ok Option.none := by
  refine ⟨rfl, by decide, rfl, by decide⟩

/-- C3 as amended: a failed launch of `which` or `ldconfig` raises an OS
error that propagates uncaught out of `have_command` and
`get_lib_installed_path`; only a launch that runs to completion yields the
boolean exit-code test, respectively the scan of the captured output. -/
theorem launch_failure_characterization
    (launch : List String → Except PyExc Int)
    (louts : List String → Except PyExc String) (name lib : String) :
    (∀ e, launch ["which", name] = Except.error e →
      have_command launch name = Except.error e) ∧
    (∀ code, launch ["which", name] = Except.ok code →
      have_command launch name = Except.ok (decide (code = 0))) ∧
    (∀ e, louts ["ldconfig", "-p"] = Except.error e →
      get_lib_installed_path louts lib = Except.error e) ∧
    (∀ out, louts ["ldconfig", "-p"] = Except.ok out →
      get_lib_installed_path louts lib = ldconfig_scan out lib) := by
  refine ⟨fun e h => ?_, fun code h => ?_, fun e h => ?_, fun out h => ?_⟩ <;>
    simp [have_command, get_lib_installed_path, h]

/-- C3 witness: the amended theorem applied at the always-failing launcher. -/
theorem launch_failure_characterization_witness :
    have_command launchFailI "pkg-config" = Except.error PyExc.osError :=
  (launch_failure_characterization launchFailI launchFailS "pkg-config"
    "libOpenCL").1 PyExc.osError (by decide)

/-- C6: `have_library` canonicalises the name, consults `find_library` with
the canonical name, returns true immediately (no pkg-config call) when
found; otherwise it invokes pkg-config --exists with the original name
under the augmented environment and returns true iff the exit code is 0,
hence false when neither source reports the library. -/
theorem have_library_spec (findLib : String → Option String)
    (callExit : PCCall → Int) (amb : Env) (name : String) :
    (pyTruthy (findLib (get_lib_short_name name)) = true →
      have_library findLib callExit amb name = (true, [])) ∧
    (pyTruthy (findLib (get_lib_short_name name)) = false →
      have_library findLib callExit amb name =
        (decide (callExit { argv := ["pkg-config", "--exists", name],
                            env := get_extra_envs amb } = 0),
         [{ argv := ["pkg-config", "--exists", name], env := get_extra_envs amb }])) ∧
    (pyTruthy (findLib (get_lib_short_name name)) = false →
      callExit { argv := ["pkg-config", "--exists", name],
                 env := get_extra_envs amb } ≠ 0 →
      (have_library findLib callExit amb name).1 = false) := by
  refine ⟨fun h => ?_, fun h => ?_, fun h h2 => ?_⟩
  · simp [have_library, h]
  · simp [have_library, h]
  · simp [have_library, h, h2]

/-- C6 witness: a made-up library that neither `find_library` nor
pkg-config reports resolves to false. -/
theorem have_library_spec_witness :
    (have_library findLibNone exitOne [] "madeup_lib_xyz").1 = false :=
  (have_library_spec findLibNone exitOne [] "madeup_lib_xyz").2.2
    (by decide) (by decide)

/-- C9: `have_library_object_file` returns true iff the library resolves
and the normalised object file name is among the space-split, individually
normalised tokens of the pkg-config --libs output; when the library does
not resolve it returns false (with no --libs invocation) rather than
raising. -/
theorem have_library_object_file_spec (findLib : String → Option String)
    (callExit : PCCall → Int) (libsOut : PCCall → String)
    (amb : Env) (libname name : String) :
    ((have_library_object_file findLib callExit libsOut amb libname name).1 = true ↔
      ((have_library findLib callExit amb libname).1 = true ∧
        get_lib_short_name name ∈
          (pcTokens (libsOut { argv := ["pkg-config", "--libs", libname],
                               env := get_extra_envs amb })).map
            (fun t => String.mk (shortNameL t)))) ∧
    ((have_library findLib callExit amb libname).1 = false →
      have_library_object_file findLib callExit libsOut amb libname name =
        (false, (have_library findLib callExit amb libname).2)) := by
  rcases h : have_library findLib callExit amb libname with ⟨b, tr⟩
  cases b
  · constructor
    · simp [have_library_object_file, h]
    · intro _
      simp [have_library_object_file, h]
  · constructor
    · simp [have_library_object_file, h]
    · intro hfalse
      simp at hfalse

/-- C9 witness: with an unresolvable package the object-file check returns
false without error. -/
theorem have_library_object_file_spec_witness :
    have_library_object_file findLibNone exitOne libsOutEmpty [] "opencv"
        "libopencv_core.so" =
      (false, (have_library findLibNone exitOne [] "opencv").2) :=
  (have_library_object_file_spec findLibNone exitOne libsOutEmpty [] "opencv"
    "libopencv_core.so").2 (by decide)

theorem pcLoop_eq_filterMap (l : List (List Char))
    (h : ∀ t ∈ l, goodTok t = true) :
    pcLoop l = Except.ok (l.filterMap pcTokenValue) := by
  induction l with
  | nil => rfl
  | cons x xs ih =>
    have hx := h x (by simp)
    have ihh := ih (fun t ht => h t (by simp [ht]))
    by_cases hx0 : x = []
    · subst hx0
      simpa [pcLoop, pcTokenValue] using ihh
    · cases hs : pyStripL x with
      | nil =>
        exfalso
        simp [goodTok, hs, List.isEmpty_iff, hx0] at hx
      | cons c rest =>
        by_cases hc : c = '-'
        · subst hc
          cases rest with
          | nil =>
            exfalso
            simp [goodTok, hs, List.isEmpty_iff, hx0] at hx
          | cons c2 rest2 =>
            simp [pcLoop, pcTokenValue, hx0, hs, ihh, List.filterMap_cons]
        · simp [pcLoop, pcTokenValue, hx0, hs, hc, ihh, List.filterMap_cons]

/-- C5 counterexample: for the token "-lfoo.so" the code keeps the
remainder "foo.so" verbatim, whereas the claim requires the remainder of an
l-classified token to be passed through the normaliser, which would give
"foo". -/
theorem pkg_config_res_l_token_cex :
    pkg_config_res "-lfoo.so" = Except.ok ["foo.so"] ∧
    get_lib_short_name "foo.so" = "foo" ∧
    ("foo.so" : String) ≠ "foo" := by decide

/-- C5 as amended: for every token of the stripped, space-split output —
provided no token reduces to nothing (a lone dash or whitespace-only token
makes the loop raise IndexError) — empty tokens are skipped, one leading
dash is stripped, a token then starting with l, L or I keeps the remainder
verbatim (with no normalisation, also for l), and any other token is
normalised whole; the output order of the tool is preserved. -/
theorem pkg_config_res_characterization (raw : String)
    (h : ∀ t ∈ pcTokens raw, goodTok t = true) :
    pkg_config_res raw = Except.ok ((pcTokens raw).filterMap pcTokenValue) :=
  pcLoop_eq_filterMap (pcTokens raw) h

/-- C5 witness: the spec's own example, a -I include flag and a -D define,
produce the include path and the bare value "DFOO". -/
theorem pkg_config_res_characterization_witness :
    pkg_config_res "-I/usr/include/foo -DFOO" =
      Except.ok ["/usr/include/foo", "DFOO"] :=
  (pkg_config_res_characterization "-I/usr/include/foo -DFOO"
    (by decide)).trans (by decide)

theorem mem_setAdd (acc : List PyAtom) (v a : PyAtom) :
    a ∈ setAdd acc v ↔ a ∈ acc ∨ a = v := by
  by_cases h : v ∈ acc
  · simp only [setAdd, if_pos h]
    constructor
    · exact Or.inl
    · rintro (ha | rfl)
      · exact ha
      · exact h
  · simp [setAdd, h]

theorem nodup_setAdd (acc : List PyAtom) (v : PyAtom) (h : acc.Nodup) :
    (setAdd acc v).Nodup := by
  by_cases hv : v ∈ acc
  · simpa [setAdd, hv] using h
  · simp only [setAdd, if_neg hv]
    refine List.Nodup.append h (List.nodup_singleton v) ?_
    intro a ha hav
    simp only [List.mem_singleton] at hav
    subst hav
    exact hv ha

theorem mem_foldl_setAdd (ys acc : List PyAtom) (a : PyAtom) :
    a ∈ ys.foldl setAdd acc ↔ a ∈ acc ∨ a ∈ ys := by
  induction ys generalizing acc with
  | nil => simp
  | cons y t ih => simp [List.foldl_cons, ih, mem_setAdd, List.mem_cons, or_assoc]

theorem nodup_foldl_setAdd (ys acc : List PyAtom) (h : acc.Nodup) :
    (ys.foldl setAdd acc).Nodup := by
  induction ys generalizing acc with
  | nil => simpa
  | cons y t ih => exact ih _ (nodup_setAdd _ _ h)

theorem mem_foldl_addArg (items : List PyArg) (acc : List PyAtom) (a : PyAtom) :
    a ∈ items.foldl addArg acc ↔
      a ∈ acc ∨ ((∃ s, a = PyAtom.str s) ∧ PyArg.atom a ∈ items) ∨
        ∃ ys, PyArg.list ys ∈ items ∧ a ∈ ys := by
  induction items generalizing acc with
  | nil => simp
  | cons x t ih =>
    cases x with
    | atom a0 =>
      cases a0 with
      | str s =>
        simp only [List.foldl_cons, addArg, ih, mem_setAdd, List.mem_cons]
        constructor
        · rintro ((ha | rfl) | h | h)
          · exact Or.inl ha
          · exact Or.inr (Or.inl ⟨⟨s, rfl⟩, Or.inl rfl⟩)
          · exact Or.inr (Or.inl ⟨h.1, Or.inr h.2⟩)
          · obtain ⟨ys, hys, hay⟩ := h
            exact Or.inr (Or.inr ⟨ys, Or.inr hys, hay⟩)
        · rintro (ha | ⟨⟨s2, rfl⟩, heq | hmem⟩ | ⟨ys, heq | hys, hay⟩)
          · exact Or.inl (Or.inl ha)
          · rw [PyArg.atom.injEq] at heq
            exact Or.inl (Or.inr heq)
          · exact Or.inr (Or.inl ⟨⟨s2, rfl⟩, hmem⟩)
          · exact absurd heq (by simp)
          · exact Or.inr (Or.inr ⟨ys, hys, hay⟩)
      | none =>
        simp only [List.foldl_cons, addArg, ih, List.mem_cons]
        constructor
        · rintro (ha | h | h)
          · exact Or.inl ha
          · exact Or.inr (Or.inl ⟨h.1, Or.inr h.2⟩)
          · obtain ⟨ys, hys, hay⟩ := h
            exact Or.inr (Or.inr ⟨ys, Or.inr hys, hay⟩)
        · rintro (ha | ⟨⟨s2, rfl⟩, heq | hmem⟩ | ⟨ys, heq | hys, hay⟩)
          · exact Or.inl ha
          · exact absurd heq (by simp)
          · exact Or.inr (Or.inl ⟨⟨s2, rfl⟩, hmem⟩)
          · exact absurd heq (by simp)
          · exact Or.inr (Or.inr ⟨ys, hys, hay⟩)
    | list ys0 =>
      simp only [List.foldl_cons, addArg, ih, mem_foldl_setAdd, List.mem_cons]
      constructor
      · rintro ((ha | hy) | h | h)
        · exact Or.inl ha
        · exact Or.inr (Or.inr ⟨ys0, Or.inl rfl, hy⟩)
        · exact Or.inr (Or.inl ⟨h.1, Or.inr h.2⟩)
        · obtain ⟨ys, hys, hay⟩ := h
          exact Or.inr (Or.inr ⟨ys, Or.inr hys, hay⟩)
      · rintro (ha | ⟨⟨s2, rfl⟩, heq | hmem⟩ | ⟨ys, heq | hys, hay⟩)
        · exact Or.inl (Or.inl ha)
        · exact absurd heq (by simp)
        · exact Or.inr (Or.inl ⟨⟨s2, rfl⟩, hmem⟩)
        · rw [PyArg.list.injEq] at heq
          subst heq
          exact Or.inl (Or.inr hay)
        · exact Or.inr (Or.inr ⟨ys, hys, hay⟩)

theorem nodup_foldl_addArg (items : List PyArg) (acc : List PyAtom)
    (h : acc.Nodup) : (items.foldl addArg acc).Nodup := by
  induction items generalizing acc with
  | nil => simpa
  | cons x t ih =>
    cases x with
    | atom a0 =>
      cases a0 with
      | str s => exact ih _ (nodup_setAdd _ _ h)
      | none => exact ih _ h
    | list ys0 => exact ih _ (nodup_foldl_setAdd _ _ h)

/-- C10 counterexample: a `None` inside a list argument is added to the
set, so the returned collection contains `None`, contrary to the claim that
the result never contains `None`. -/
theorem build_lst_none_in_list_cex :
    build_lst [PyArg.list [PyAtom.none]] = [PyAtom.none] ∧
    PyAtom.none ∈ build_lst [PyArg.list [PyAtom.none]] := by decide

/-- C10 as amended: the result of `build_lst` holds exactly the string
arguments and the elements of list arguments (of any type, `None`
included); other bare arguments — in particular the bare `None` passed for
the OpenCL link specifier and library directory — contribute nothing; the
result is duplicate-free, and contains no `None` provided no list argument
contains one, as at the py_motion call sites. -/
theorem build_lst_characterization (items : List PyArg) :
    (∀ a, a ∈ build_lst items ↔
      ((∃ s, a = PyAtom.str s) ∧ PyArg.atom a ∈ items) ∨
        ∃ ys, PyArg.list ys ∈ items ∧ a ∈ ys) ∧
    (build_lst items).Nodup ∧
    ((∀ ys, PyArg.list ys ∈ items → PyAtom.none ∉ ys) →
      PyAtom.none ∉ build_lst items) := by
  refine ⟨fun a => ?_, ?_, ?_⟩
  · simpa [build_lst] using mem_foldl_addArg items [] a
  · exact nodup_foldl_addArg items [] List.nodup_nil
  · intro hno hmem
    rcases (mem_foldl_addArg items [] PyAtom.none).1 hmem with
      h | ⟨⟨s, hs⟩, _⟩ | ⟨ys, hys, hay⟩
    · simp at h
    · exact absurd hs (by simp)
    · exact hno ys hys hay

/-- C10 witness: at arguments mirroring the py_motion libraries call (a
list of strings, a bare None, a bare string) the result contains no None. -/
theorem build_lst_characterization_witness :
    PyAtom.none ∉ build_lst demoItems :=
  (build_lst_characterization demoItems).2.2
    (by
      intro ys hys
      simp only [demoItems, List.mem_cons] at hys
      rcases hys with heq | heq | heq | heq
      · rw [PyArg.list.injEq] at heq
        subst heq
        decide
      · exact absurd heq (by simp)
      · exact absurd heq (by simp)
      · simp at heq)

theorem scanChecks_of_all {α : Type} (ok : α → Bool) (msg : α → String)
    (l : List α) (h : ∀ x ∈ l, ok x = true) :
    scanChecks ok msg l = (Option.none, l) := by
  induction l with
  | nil => rfl
  | cons x xs ih =>
    have hx : ok x = true := h x (by simp)
    simp [scanChecks, hx, ih (fun t ht => h t (by simp [ht]))]

theorem scanChecks_of_fail {α : Type} (ok : α → Bool) (msg : α → String)
    (l : List α) (y : α) (ys : List α) (h : l.dropWhile ok = y :: ys) :
    scanChecks ok msg l = (some (msg y), l.takeWhile ok ++ [y]) := by
  induction l with
  | nil => simp at h
  | cons x xs ih =>
    by_cases hx : ok x
    · have h2 : xs.dropWhile ok = y :: ys := by
        simpa [List.dropWhile_cons, hx] using h
      simp [scanChecks, hx, ih h2, List.takeWhile_cons]
    · simp [List.dropWhile_cons, hx] at h
      obtain ⟨rfl, rfl⟩ := h
      simp [scanChecks, hx, List.takeWhile_cons]

theorem scanChecks_append {α : Type} (ok : α → Bool) (msg : α → String)
    (l1 l2 : List α) :
    scanChecks ok msg (l1 ++ l2) =
      match scanChecks ok msg l1 with
      | (some m, t) => (some m, t)
      | (Option.none, t) =>
        ((scanChecks ok msg l2).1, t ++ (scanChecks ok msg l2).2) := by
  induction l1 with
  | nil => simp [scanChecks]
  | cons x xs ih =>
    by_cases hx : ok x
    · rcases h1 : scanChecks ok msg xs with ⟨r1, t1⟩
      cases r1 <;> simp [scanChecks, hx, ih, h1]
    · simp [scanChecks, hx]

theorem check_eq_scan (o : DepOracle) (h2 : o.py_ver_X = 2) :
    check_dependencies o =
      (match scanChecks (probeOk o) probeMsg (allProbes o) with
       | (some m, t) => ((false, some m), t)
       | (Option.none, t) => ((true, Option.none), t)) := by
  have himp : scanChecks (probeOk o) probeMsg [Probe.importCv2] =
      if o.cv2_ok then (Option.none, [Probe.importCv2])
      else (some (probeMsg Probe.importCv2), [Probe.importCv2]) := by
    by_cases hc : o.cv2_ok <;> simp [scanChecks, probeOk, hc]
  simp only [allProbes, List.append_assoc, scanChecks_append, himp]
  simp only [check_dependencies, h2, ne_eq, not_true_eq_false, if_false]
  rcases hT : scanChecks (probeOk o) probeMsg (dep_tools o) with ⟨rT, tT⟩
  cases rT
  · rcases hL : scanChecks (probeOk o) probeMsg dep_libs with ⟨rL, tL⟩
    cases rL
    · rcases hO : scanChecks (probeOk o) probeMsg dep_objfiles with ⟨rO, tO⟩
      cases rO
      · by_cases hc : o.cv2_ok <;> simp [hT, hL, hO, hc, probeMsg, List.append_assoc]
      · simp [hT, hL, hO, List.append_assoc]
    · simp [hT, hL]
  · simp [hT]

/-- C1: the dependency gate checks the runtime major version first and,
when it is not 2, returns false with the version-mismatch message having
run no probe at all; otherwise it runs the probes of `allProbes` (tools,
then libraries, then object files, then the binding import) strictly in
order, stopping at the first failing probe with exactly that probe's
message and executing nothing beyond it, and returns true with no message
when every probe passes. -/
theorem check_dependencies_spec (o : DepOracle) :
    (o.py_ver_X ≠ 2 →
      check_dependencies o =
        ((false, some ("Python " ++ py_ver o ++ " is not version 2.x")), [])) ∧
    (o.py_ver_X = 2 →
      ((allProbes o).all (probeOk o) = true →
        check_dependencies o = ((true, Option.none), allProbes o)) ∧
      (∀ y ys, (allProbes o).dropWhile (probeOk o) = y :: ys →
        check_dependencies o =
          ((false, some (probeMsg y)),
           (allProbes o).takeWhile (probeOk o) ++ [y]))) := by
  refine ⟨fun h => ?_, fun h2 => ⟨fun hall => ?_, fun y ys hdrop => ?_⟩⟩
  · simp [check_dependencies, h]
  · rw [check_eq_scan o h2,
      scanChecks_of_all (probeOk o) probeMsg (allProbes o) (List.all_eq_true.1 hall)]
  · rw [check_eq_scan o h2,
      scanChecks_of_fail (probeOk o) probeMsg (allProbes o) y ys hdrop]

/-- C1 witness: under a Python 3.4 oracle the gate reports the version
mismatch with an empty probe trace, i.e. zero tool/library probe calls. -/
theorem check_dependencies_spec_witness :
    check_dependencies oracleV3 =
      ((false, some ("Python " ++ py_ver oracleV3 ++ " is not version 2.x")), []) :=
  (check_dependencies_spec oracleV3).1 (by decide)

theorem chopAtAux_eq_truncAtFirst (xs pat : List Char) :
    chopAtAux xs pat = truncAtFirst pat xs := by
  induction xs with
  | nil => by_cases hp : pat.isEmpty <;> simp [chopAtAux, truncAtFirst, firstOccIdx, hp]
  | cons c t ih =>
    by_cases hpre : pat.isPrefixOf (c :: t)
    · simp [chopAtAux, truncAtFirst, firstOccIdx, hpre]
    · cases hfo : firstOccIdx pat t with
      | none =>
        have ht : truncAtFirst pat t = t := by simp [truncAtFirst, hfo]
        simp [chopAtAux, truncAtFirst, firstOccIdx, hpre, hfo, ih, ht]
      | some i =>
        have ht : truncAtFirst pat t = t.take i := by simp [truncAtFirst, hfo]
        simp [chopAtAux, truncAtFirst, firstOccIdx, hpre, hfo, ih, ht]

theorem takeWhile_all_eq {α : Type} {p : α → Bool} {l : List α}
    (h : ∀ x ∈ l, p x = true) : l.takeWhile p = l := by
  induction l with
  | nil => rfl
  | cons x t ih =>
    simp [List.takeWhile_cons, h x (by simp), ih (fun a ha => h a (by simp [ha]))]

theorem takeWhile_append_stop {α : Type} {p : α → Bool} {x : α}
    (l1 l2 : List α) (hx : p x = false) :
    (l1 ++ x :: l2).takeWhile p = l1.takeWhile p := by
  induction l1 with
  | nil => simp [List.takeWhile_cons, hx]
  | cons a t ih => by_cases ha : p a <;> simp [List.takeWhile_cons, ha, ih]

theorem basenameL_append_slash (acc t : List Char) :
    basenameL (acc ++ '/' :: t) = basenameL t := by
  unfold basenameL
  rw [List.reverse_append, List.reverse_cons, List.append_assoc,
    List.singleton_append, takeWhile_append_stop _ _ (by simp)]

theorem basenameL_eq_self (xs : List Char) (h : ∀ c ∈ xs, c ≠ '/') :
    basenameL xs = xs := by
  unfold basenameL
  have hall : ∀ x ∈ xs.reverse, (fun c => c != '/') x = true := by
    intro c hc
    rw [List.mem_reverse] at hc
    simpa [bne_iff_ne] using h c hc
  rw [takeWhile_all_eq hall, List.reverse_reverse]

theorem foldl_lastComp (xs : List Char) : ∀ acc : List Char,
    (∀ c ∈ acc, c ≠ '/') →
    List.foldl (fun acc c => if c = '/' then [] else acc ++ [c]) acc xs =
      basenameL (acc ++ xs) := by
  induction xs with
  | nil =>
    intro acc h
    simp only [List.foldl_nil, List.append_nil]
    exact (basenameL_eq_self acc h).symm
  | cons c t ih =>
    intro acc h
    by_cases hc : c = '/'
    · subst hc
      have h0 : List.foldl (fun acc c => if c = '/' then [] else acc ++ [c]) acc ('/' :: t) =
          List.foldl (fun acc c => if c = '/' then [] else acc ++ [c]) [] t := by
        simp
      rw [h0, ih [] (by simp), List.nil_append, basenameL_append_slash]
    · have hext : ∀ a ∈ acc ++ [c], a ≠ '/' := by
        intro a ha
        rcases List.mem_append.1 ha with h1 | h1
        · exact h a h1
        · simp only [List.mem_singleton] at h1
          subst h1
          exact hc
      simp only [List.foldl_cons, if_neg hc]
      rw [ih (acc ++ [c]) hext, List.append_assoc, List.singleton_append]

theorem lastCompFold_eq (xs : List Char) : lastCompFold xs = basenameL xs := by
  simpa [lastCompFold] using foldl_lastComp xs [] (by simp)

theorem stripDashL_eq (xs : List Char) :
    (if ['-', 'l'].isPrefixOf xs then xs.drop 2 else xs) = stripDashL xs := by
  match xs with
  | [] => rfl
  | [c] => simp [List.isPrefixOf, stripDashL]
  | c1 :: c2 :: rest =>
    by_cases h1 : c1 = '-'
    · by_cases h2 : c2 = 'l'
      · subst h1; subst h2
        simp [List.isPrefixOf, stripDashL]
      · subst h1
        simp only [List.isPrefixOf, stripDashL]
        simp [h2]
        exact fun heq => absurd heq.symm h2
    · simp only [List.isPrefixOf, stripDashL]
      simp [h1]
      exact fun heq _ => absurd heq.symm h1

theorem stripLib3_eq (xs : List Char) :
    (if ['l', 'i', 'b'].isPrefixOf xs then xs.drop 3 else xs) = stripLib3 xs := by
  match xs with
  | [] => rfl
  | [c] => simp [List.isPrefixOf, stripLib3]
  | [c1, c2] => simp [List.isPrefixOf, stripLib3]
  | c1 :: c2 :: c3 :: rest =>
    by_cases h1 : c1 = 'l'
    · by_cases h2 : c2 = 'i'
      · by_cases h3 : c3 = 'b'
        · subst h1; subst h2; subst h3
          simp [List.isPrefixOf, stripLib3]
        · subst h1; subst h2
          simp only [List.isPrefixOf, stripLib3]
          simp [h3]
          exact fun heq => absurd heq.symm h3
      · subst h1
        simp only [List.isPrefixOf, stripLib3]
        simp [h2]
        exact fun heq _ => absurd heq.symm h2
    · simp only [List.isPrefixOf, stripLib3]
      simp [h1]
      exact fun heq _ _ => absurd heq.symm h1

/-- C8 counterexample: on a full path the source normaliser takes the
basename first and yields "opencv_core", while the claimed algorithm
(strip "-l", strip "lib", truncate at the suffix) leaves the directory
part in place. -/
theorem normalize_missing_steps_cex :
    get_lib_short_name "/usr/lib/libopencv_core.so" = "opencv_core" ∧
    normalize_claim_worded "/usr/lib/libopencv_core.so" = "/usr/lib/libopencv_core" ∧
    ("opencv_core" : String) ≠ "/usr/lib/libopencv_core" := by decide

/-- C8 as amended: `get_lib_short_name` first trims surrounding whitespace
and reduces to the final path component, then strips a leading "-l", then a
leading "lib", then truncates at the first occurrence of ".so", then
".dylib", then ".a"; it is total, with no I/O and no failure mode, as
witnessed by this equivalence with an independently phrased total
function. -/
theorem normalize_amended_equiv (s : String) :
    get_lib_short_name s = normalize_amended_spec s := by
  simp only [get_lib_short_name, normalize_amended_spec, shortNameL,
    chopAtAux_eq_truncAtFirst, lastCompFold_eq, stripDashL_eq, stripLib3_eq]

theorem prefix_chopAtAux (xs pat : List Char) : chopAtAux xs pat <+: xs := by
  induction xs with
  | nil => simp [chopAtAux]
  | cons c t ih =>
    by_cases hp : pat.isPrefixOf (c :: t)
    · simp [chopAtAux, hp]
    · have hstep : chopAtAux (c :: t) pat = c :: chopAtAux t pat := by
        simp [chopAtAux, hp]
      rw [hstep]
      exact List.cons_prefix_cons.2 ⟨rfl, ih⟩

theorem chopAtAux_not_infix (xs pat : List Char) (hpat : pat ≠ []) :
    ¬ pat <:+: chopAtAux xs pat := by
  induction xs with
  | nil =>
    intro h
    exact hpat (List.eq_nil_of_infix_nil (by simpa [chopAtAux] using h))
  | cons c t ih =>
    by_cases hp : pat.isPrefixOf (c :: t)
    · intro h
      exact hpat (List.eq_nil_of_infix_nil (by simpa [chopAtAux, hp] using h))
    · intro h
      have h2 : pat <:+: c :: chopAtAux t pat := by
        simpa [chopAtAux, hp] using h
      rcases List.infix_cons_iff.1 h2 with hpre | hinf
      · have hcp : pat <+: c :: t :=
          hpre.trans (List.cons_prefix_cons.2 ⟨rfl, prefix_chopAtAux t pat⟩)
        exact hp (List.isPrefixOf_iff_prefix.2 hcp)
      · exact ih hinf

theorem chopAtAux_eq_self (xs pat : List Char) (h : ¬ pat <:+: xs) :
    chopAtAux xs pat = xs := by
  induction xs with
  | nil => rfl
  | cons c t ih =>
    by_cases hp : pat.isPrefixOf (c :: t)
    · exact absurd (List.isPrefixOf_iff_prefix.1 hp).isInfix h
    · simp [chopAtAux, hp, ih (fun hi => h (List.infix_cons hi))]

theorem mem_chopAtAux {xs pat : List Char} {c : Char}
    (h : c ∈ chopAtAux xs pat) : c ∈ xs :=
  (prefix_chopAtAux xs pat).sublist.subset h

theorem mem_basenameL {xs : List Char} {c : Char} (h : c ∈ basenameL xs) :
    c ≠ '/' := by
  unfold basenameL at h
  rw [List.mem_reverse] at h
  have := List.mem_takeWhile_imp h
  simpa [bne_iff_ne] using this

theorem shortNameL_no_slash (xs : List Char) : ∀ c ∈ shortNameL xs, c ≠ '/' := by
  intro c hc
  simp only [shortNameL] at hc
  replace hc := mem_chopAtAux (mem_chopAtAux (mem_chopAtAux hc))
  have step : ∀ (p : Bool) (l : List Char) (n : Nat),
      c ∈ (if p then l.drop n else l) → c ∈ l := by
    intro p l n h
    split at h
    · exact List.drop_subset _ _ h
    · exact h
  replace hc := step _ _ _ hc
  replace hc := step _ _ _ hc
  exact mem_basenameL hc

theorem shortNameL_not_infix_aPat (xs : List Char) :
    ¬ aPat <:+: shortNameL xs := by
  simp only [shortNameL]
  exact chopAtAux_not_infix _ _ (by decide)

theorem shortNameL_not_infix_dylibPat (xs : List Char) :
    ¬ dylibPat <:+: shortNameL xs := by
  simp only [shortNameL]
  intro h
  have h2 := h.trans (prefix_chopAtAux _ aPat).isInfix
  exact chopAtAux_not_infix _ dylibPat (by decide) h2

theorem shortNameL_not_infix_soPat (xs : List Char) :
    ¬ soPat <:+: shortNameL xs := by
  simp only [shortNameL]
  intro h
  have h2 := h.trans (prefix_chopAtAux _ aPat).isInfix
  have h3 := h2.trans (prefix_chopAtAux _ dylibPat).isInfix
  exact chopAtAux_not_infix _ soPat (by decide) h3

theorem shortNameL_fixpoint (l : List Char)
    (h0 : pyStripL l = l)
    (h1 : ['-', 'l'].isPrefixOf l = false)
    (h2 : ['l', 'i', 'b'].isPrefixOf l = false)
    (h3 : ∀ c ∈ l, c ≠ '/')
    (h4 : ¬ soPat <:+: l) (h5 : ¬ dylibPat <:+: l) (h6 : ¬ aPat <:+: l) :
    shortNameL l = l := by
  simp only [shortNameL, h0]
  rw [basenameL_eq_self l h3]
  have e2 : (if ['-', 'l'].isPrefixOf l then l.drop 2 else l) = l := by
    rw [h1]
    simp
  have e3 : (if ['l', 'i', 'b'].isPrefixOf l then l.drop 3 else l) = l := by
    rw [h2]
    simp
  rw [e2, e3]
  rw [chopAtAux_eq_self l soPat h4, chopAtAux_eq_self l dylibPat h5,
    chopAtAux_eq_self l aPat h6]

/-- C4 counterexample: the normaliser is not idempotent in general: a
normalised form that again starts with "lib" is reduced further by a
second application, as for the input "liblibopencv". -/
theorem normalize_not_idempotent_cex :
    get_lib_short_name "liblibopencv" = "libopencv" ∧
    get_lib_short_name "libopencv" = "opencv" ∧
    get_lib_short_name (get_lib_short_name "liblibopencv") ≠
      get_lib_short_name "liblibopencv" := by decide

/-- C4 as amended: the stated examples hold, and the normaliser is
idempotent on every input whose normalised form is already
whitespace-trimmed and does not begin with "-l" or "lib" (the two stated
examples satisfy this); without those conditions a second application can
strip further, as the counterexample shows. -/
theorem normalize_idempotent_conditional :
    get_lib_short_name "-lavcodec" = "avcodec" ∧
    get_lib_short_name "libopencv_core.so.3.4" = "opencv_core" ∧
    ∀ x : String,
      pyStripL (shortNameL x.toList) = shortNameL x.toList →
      ['-', 'l'].isPrefixOf (shortNameL x.toList) = false →
      ['l', 'i', 'b'].isPrefixOf (shortNameL x.toList) = false →
      get_lib_short_name (get_lib_short_name x) = get_lib_short_name x := by
  refine ⟨by decide, by decide, fun x hstrip hdl hlib => ?_⟩
  exact congrArg String.mk
    (shortNameL_fixpoint (shortNameL x.toList) hstrip hdl hlib
      (shortNameL_no_slash x.toList)
      (shortNameL_not_infix_soPat x.toList)
      (shortNameL_not_infix_dylibPat x.toList)
      (shortNameL_not_infix_aPat x.toList))

/-- C4 witness: idempotence at the spec's own example "-lavcodec". -/
theorem normalize_idempotent_conditional_witness :
    get_lib_short_name (get_lib_short_name "-lavcodec") =
      get_lib_short_name "-lavcodec" :=
  normalize_idempotent_conditional.2.2 "-lavcodec" (by decide) (by decide) (by decide)
